import Mathlib

/-!
# Verification of the Rack rotary-control core

Shallow embedding of the repository's two source files:

* `src/include/util.hpp` — scalar helpers (`clampf`, `mapf`, `crossf`,
  `eucMod`, `interpf`) and the 2D geometry types `Vec` and `Rect`;
* `src/src/app/SVGKnob.cpp` — the rotary control node (`SVGKnob::step`,
  `SVGKnob::onChange`).

Floats are modelled by an arbitrary linear ordered field (instantiated at `ℚ`
for executable checks and at `ℝ` where the angle `π` appears); C `int` by `ℤ`
with C's truncating `%` modelled by `Int.tmod`.

`SVGKnob::step` calls `rescalef` and the methods of `TransformWidget`,
`FramebufferWidget` and `Knob`, whose definitions are not part of this
repository's sources; those are modelled from the spec and marked as such in
their doc comments.
-/

namespace Rack

variable {α : Type} [LinearOrderedField α]

/-- Function `clampf` from `util.hpp`: `if (x > max) x = max; if (x < min) x = min;
return x;` (two sequential in-place updates). -/
def clampf (x lo hi : α) : α :=
  let x1 := if x > hi then hi else x
  if x1 < lo then lo else x1

/-- Function `mapf` from `util.hpp`: `yMin + (x - xMin) / (xMax - xMin) * (yMax - yMin)`. -/
def mapf (x xMin xMax yMin yMax : α) : α :=
  yMin + (x - xMin) / (xMax - xMin) * (yMax - yMin)

/-- Modelled from the spec: `rescalef` is called by `SVGKnob::step` but is not
defined under the repository sources; the spec's §4.1 `map(x, xMin, xMax, yMin,
yMax)` is the affine remap, identical to `mapf` from `util.hpp`. -/
def rescalef (x xMin xMax yMin yMax : α) : α :=
  yMin + (x - xMin) / (xMax - xMin) * (yMax - yMin)

/-- Function `crossf` from `util.hpp`: `(1.0 - frac) * a + frac * b`. -/
def crossf (a b frac : α) : α :=
  (1 - frac) * a + frac * b

/-- Function `eucMod` from `util.hpp`: `int mod = a % base; return mod < 0 ? mod + base
: mod;` — C's `%` on `int` truncates toward zero, i.e. `Int.tmod`. -/
def eucMod (a base : ℤ) : ℤ :=
  let mod := Int.tmod a base
  if mod < 0 then mod + base else mod

/-- The C cast of a floating value to `int`: truncation toward zero. -/
def truncToInt [FloorRing α] (x : α) : ℤ :=
  if x < 0 then ⌈x⌉ else ⌊x⌋

/-- Read of `p[i]` for an integer index, totalised: an index outside the array
returns `0` (in C this access is undefined behavior). -/
def getI (p : List α) (i : ℤ) : α :=
  if i < 0 then 0 else p.getD i.toNat 0

/-- Function `interpf` from `util.hpp`: `int xi = x; float xf = x - xi; return
crossf(p[xi], p[xi+1], xf);`. -/
def interpf [FloorRing α] (p : List α) (x : α) : α :=
  let xi : ℤ := truncToInt x
  let xf : α := x - xi
  crossf (getI p xi) (getI p (xi + 1)) xf

/-- The spec's description of `interp`: linear interpolation between
`array[floor(x)]` and `array[floor(x)+1]` with fraction `x - floor(x)`,
with array reads totalised exactly as in `getI`. -/
def interpSpec [FloorRing α] (p : List α) (x : α) : α :=
  (1 - (x - ⌊x⌋)) * getI p ⌊x⌋ + (x - ⌊x⌋) * getI p (⌊x⌋ + 1)

/-- Structure `Vec` from `util.hpp`. -/
structure Vec (α : Type) where
  x : α
  y : α
  deriving DecidableEq, Repr

/-- Method `Vec::neg`. -/
def Vec.neg (v : Vec α) : Vec α := ⟨-v.x, -v.y⟩

/-- Method `Vec::plus`. -/
def Vec.plus (v b : Vec α) : Vec α := ⟨v.x + b.x, v.y + b.y⟩

/-- Method `Vec::minus`. -/
def Vec.minus (v b : Vec α) : Vec α := ⟨v.x - b.x, v.y - b.y⟩

/-- Method `Vec::mult` (scalar). -/
def Vec.mult (v : Vec α) (s : α) : Vec α := ⟨v.x * s, v.y * s⟩

/-- Method `Vec::div` (scalar), as in `util.hpp`. -/
def Vec.div (v : Vec α) (s : α) : Vec α := ⟨v.x / s, v.y / s⟩

/-- Modelled from the spec: componentwise division used by `SVGKnob::step`'s
`scale(displayBoxSize / childNaturalSize)` (“fit child to the node's box”);
the `Vec`-argument overload of `Vec::div` is absent from the sources. -/
def Vec.divVec (v b : Vec α) : Vec α := ⟨v.x / b.x, v.y / b.y⟩

/-- Structure `Rect` from `util.hpp`. -/
structure Rect (α : Type) where
  pos : Vec α
  size : Vec α
  deriving DecidableEq, Repr

/-- Method `Rect::contains`: inclusive on the top/left, non-inclusive on the
bottom/right. -/
def Rect.contains (r : Rect α) (v : Vec α) : Prop :=
  (r.pos.x ≤ v.x ∧ v.x < r.pos.x + r.size.x) ∧
  (r.pos.y ≤ v.y ∧ v.y < r.pos.y + r.size.y)

instance (r : Rect α) (v : Vec α) : Decidable (r.contains v) := by
  unfold Rect.contains; infer_instance

/-- Method `Rect::intersects`. -/
def Rect.intersects (r other : Rect α) : Prop :=
  (r.pos.x + r.size.x > other.pos.x ∧ other.pos.x + other.size.x > r.pos.x) ∧
  (r.pos.y + r.size.y > other.pos.y ∧ other.pos.y + other.size.y > r.pos.y)

instance (r other : Rect α) : Decidable (r.intersects other) := by
  unfold Rect.intersects; infer_instance

/-- Method `Rect::getCenter`: `pos.plus(size.mult(0.5))`. -/
def Rect.getCenter (r : Rect α) : Vec α := r.pos.plus (r.size.mult (1 / 2))

/-- Method `Rect::clamp`: keeps the size and clamps each position coordinate with
`clampf` into `[bound.pos, bound.pos + bound.size - size]`. -/
def Rect.clamp (r bound : Rect α) : Rect α :=
  { pos := ⟨clampf r.pos.x bound.pos.x (bound.pos.x + bound.size.x - r.size.x),
            clampf r.pos.y bound.pos.y (bound.pos.y + bound.size.y - r.size.y)⟩,
    size := r.size }

/-- Nonempty intersection of the two open intervals `(a1, b1)` and `(a2, b2)`:
the mathematical reading of the spec's “the open intervals overlap”. -/
def openOverlap (a1 b1 a2 b2 : α) : Prop :=
  ∃ t, (a1 < t ∧ t < b1) ∧ (a2 < t ∧ t < b2)

/-- One operation composed onto the Affine Transform Accumulator
(`TransformWidget::scale` / `rotate` / `translate`). -/
inductive TOp (α : Type) where
  | scale (s : Vec α)
  | rotate (angle : α)
  | translate (d : Vec α)
  deriving DecidableEq, Repr

/-- Action of a single accumulator operation on a point. `trig` interprets an
angle as its (cosine, sine) pair, abstracting the C library's `cosf`/`sinf`. -/
def applyOp (trig : α → α × α) (op : TOp α) (v : Vec α) : Vec α :=
  match op with
  | .scale s => ⟨s.x * v.x, s.y * v.y⟩
  | .rotate a => ⟨(trig a).1 * v.x - (trig a).2 * v.y,
                  (trig a).2 * v.x + (trig a).1 * v.y⟩
  | .translate d => ⟨v.x + d.x, v.y + d.y⟩

/-- Action of an operation list on a point. Per spec §4.2 each call composes
onto the already-transformed frame, so the last call in the list is the first
applied to the point (right-to-left composition). -/
def applyOps (trig : α → α × α) (ops : List (TOp α)) (v : Vec α) : Vec α :=
  match ops with
  | [] => v
  | op :: rest => applyOp trig op (applyOps trig rest v)

/-- Modelled from the spec (§4.2): the Affine Transform Accumulator
(`TransformWidget`, not part of this repository's sources), kept as the list of
operations composed since the last `identity()`, in call order. -/
structure TransformWidget (α : Type) where
  ops : List (TOp α)
  deriving DecidableEq, Repr

/-- Modelled from the spec: `identity()` resets to the identity transform. -/
def TransformWidget.identity (_tw : TransformWidget α) : TransformWidget α :=
  ⟨[]⟩

/-- Modelled from the spec: `scale` composes onto the current transform. -/
def TransformWidget.scale (tw : TransformWidget α) (s : Vec α) :
    TransformWidget α :=
  ⟨tw.ops ++ [TOp.scale s]⟩

/-- Modelled from the spec: `rotate` composes onto the current transform. -/
def TransformWidget.rotate (tw : TransformWidget α) (angle : α) :
    TransformWidget α :=
  ⟨tw.ops ++ [TOp.rotate angle]⟩

/-- Modelled from the spec: `translate` composes onto the current transform. -/
def TransformWidget.translate (tw : TransformWidget α) (d : Vec α) :
    TransformWidget α :=
  ⟨tw.ops ++ [TOp.translate d]⟩

/-- State of `SVGKnob` (from `SVGKnob.cpp`): the parameter and angle range
inherited from `Knob`, the `dirty` flag inherited from `FramebufferWidget`,
the owned `TransformWidget` `tw`, the SVG child's box `sw->box`, and the
node's own `box`. -/
structure SVGKnob (α : Type) where
  value : α
  minValue : α
  maxValue : α
  minAngle : α
  maxAngle : α
  dirty : Bool
  tw : TransformWidget α
  swBox : Rect α
  box : Rect α
  deriving DecidableEq, Repr

/-- Modelled from the spec (§4.3): `FramebufferWidget::step` (not part of this
repository's sources) re-renders the cached raster when dirty and then clears
the dirty flag; the raster buffer itself is outside the model. -/
def FramebufferWidget.step (k : SVGKnob α) : SVGKnob α :=
  { k with dirty := false }

/-- Method `SVGKnob::step` from `SVGKnob.cpp`: when dirty, recompute
`angle = rescalef(value, minValue, maxValue, minAngle, maxAngle)` and rebuild
`tw` by `identity(); scale(box.size / sw->box.size); translate(center);
rotate(angle); translate(center.neg())` with `center = sw->box.getCenter()`;
then delegate to `FramebufferWidget::step`. -/
def SVGKnob.step (k : SVGKnob α) : SVGKnob α :=
  if k.dirty then
    let angle := rescalef k.value k.minValue k.maxValue k.minAngle k.maxAngle
    let center := k.swBox.getCenter
    let tw := ((((k.tw.identity).scale
        (k.box.size.divVec k.swBox.size)).translate center).rotate
        angle).translate center.neg
    FramebufferWidget.step { k with tw := tw }
  else
    FramebufferWidget.step k

/-- Modelled from the spec (§4.4): the base-class notification chain
(`Knob::onChange`, not part of this repository's sources) forwards the value
change to the bound model and does not touch the rendering state. -/
def Knob.onChange (k : SVGKnob α) : SVGKnob α := k

/-- Method `SVGKnob::onChange` from `SVGKnob.cpp`: `dirty = true; Knob::onChange();`. -/
def SVGKnob.onChange (k : SVGKnob α) : SVGKnob α :=
  Knob.onChange { k with dirty := true }

/-! ## Helper lemmas -/

/-- Helper: when the interval is nonempty, `clampf` lands in it. -/
lemma clampf_mem (x lo hi : α) (h : lo ≤ hi) :
    lo ≤ clampf x lo hi ∧ clampf x lo hi ≤ hi := by
  simp only [clampf]
  split_ifs <;> constructor <;> linarith

/-- Helper: with an empty interval (`hi < lo`), `clampf` returns `lo`. -/
lemma clampf_of_empty (x lo hi : α) (h : hi < lo) : clampf x lo hi = lo := by
  simp only [clampf]
  split_ifs <;> linarith

/-- Helper: C's truncating modulus is strictly greater than `-b` for `0 < b`. -/
lemma neg_lt_tmod (a b : ℤ) (hb : 0 < b) : -b < Int.tmod a b := by
  match a, b with
  | Int.ofNat m, b =>
    have h0 : (0 : ℤ) ≤ Int.tmod (Int.ofNat m) b :=
      Int.tmod_nonneg _ (Int.ofNat_nonneg m)
    linarith
  | Int.negSucc m, Int.ofNat n =>
    have hn : 0 < n := by simpa [Int.ofNat_eq_coe] using hb
    have he : Int.tmod (Int.negSucc m) (Int.ofNat n) = -(((m + 1) % n : ℕ) : ℤ) :=
      rfl
    rw [he]
    have := Nat.mod_lt (m + 1) hn
    simp only [Int.ofNat_eq_coe]
    omega
  | Int.negSucc m, Int.negSucc n =>
    exact absurd hb (not_lt.mpr (le_of_lt (Int.negSucc_lt_zero n)))

/-- Helper: overlap of two open intervals written with left endpoint and
positive width is equivalent to the strict-inequality test the code uses. -/
lemma axis_overlap_iff (a1 s1 a2 s2 : α) (h1 : 0 < s1) (h2 : 0 < s2) :
    (a1 + s1 > a2 ∧ a2 + s2 > a1) ↔ openOverlap a1 (a1 + s1) a2 (a2 + s2) := by
  constructor
  · rintro ⟨hA, hB⟩
    have hL1 := le_max_left a1 a2
    have hL2 := le_max_right a1 a2
    have hR1 := min_le_left (a1 + s1) (a2 + s2)
    have hR2 := min_le_right (a1 + s1) (a2 + s2)
    have hlt : max a1 a2 < min (a1 + s1) (a2 + s2) :=
      max_lt (lt_min (by linarith) (by linarith))
        (lt_min (by linarith) (by linarith))
    exact ⟨(max a1 a2 + min (a1 + s1) (a2 + s2)) / 2,
      ⟨by linarith, by linarith⟩, by linarith, by linarith⟩
  · rintro ⟨t, ⟨ht1, ht2⟩, ht3, ht4⟩
    exact ⟨by linarith, by linarith⟩

/-- The spec's reading of `intersects`: both axes' open intervals have a
common point. -/
def rectOpenOverlap (a b : Rect α) : Prop :=
  openOverlap a.pos.x (a.pos.x + a.size.x) b.pos.x (b.pos.x + b.size.x) ∧
  openOverlap a.pos.y (a.pos.y + a.size.y) b.pos.y (b.pos.y + b.size.y)

/-! ## Claims -/

/-- C5: `Rect::contains` is half-open — it holds iff `pos.x ≤ v.x < pos.x +
size.x` and `pos.y ≤ v.y < pos.y + size.y`; the rectangle at `(0,0)` of size
`(10,10)` does not contain `(10,5)` but does contain `(0,5)`. -/
theorem rect_contains_half_open :
    (∀ (r : Rect ℚ) (v : Vec ℚ),
      r.contains v ↔
        (r.pos.x ≤ v.x ∧ v.x < r.pos.x + r.size.x) ∧
        (r.pos.y ≤ v.y ∧ v.y < r.pos.y + r.size.y)) ∧
    ¬ (Rect.mk ⟨0, 0⟩ ⟨10, 10⟩ : Rect ℚ).contains ⟨10, 5⟩ ∧
    (Rect.mk ⟨0, 0⟩ ⟨10, 10⟩ : Rect ℚ).contains ⟨0, 5⟩ :=
  ⟨fun _ _ => Iff.rfl, by norm_num [Rect.contains], by norm_num [Rect.contains]⟩

/-- C6 counterexample: for the degenerate (zero-size) rectangle at `(5,5)`
inside the box at `(0,0)` of size `(10,10)`, `intersects` returns true although
the open intervals `(5,5)` are empty and overlap nothing, so the claimed
equivalence fails as stated. -/
theorem rect_intersects_overlap_cex :
    ¬ ((Rect.intersects (⟨⟨5, 5⟩, ⟨0, 0⟩⟩ : Rect ℚ) ⟨⟨0, 0⟩, ⟨10, 10⟩⟩) ↔
       rectOpenOverlap (⟨⟨5, 5⟩, ⟨0, 0⟩⟩ : Rect ℚ) ⟨⟨0, 0⟩, ⟨10, 10⟩⟩) := by
  intro h
  have h2 := h.mp (by norm_num [Rect.intersects])
  unfold rectOpenOverlap openOverlap at h2
  dsimp only at h2
  obtain ⟨⟨t, ⟨ht1, ht2⟩, -⟩, -⟩ := h2
  linarith

/-- C6 (amended): for rectangles of positive size on both axes,
`Rect::intersects` holds iff the open intervals on both axes overlap; and in
general two rectangles that merely touch along an edge do not intersect. -/
theorem rect_intersects_overlap :
    (∀ a b : Rect ℚ, 0 < a.size.x → 0 < a.size.y → 0 < b.size.x →
      0 < b.size.y → (a.intersects b ↔ rectOpenOverlap a b)) ∧
    (∀ a b : Rect ℚ, a.pos.x + a.size.x = b.pos.x → ¬ a.intersects b) := by
  constructor
  · intro a b hax hay hbx hby
    unfold Rect.intersects rectOpenOverlap
    exact and_congr (axis_overlap_iff _ _ _ _ hax hbx)
      (axis_overlap_iff _ _ _ _ hay hby)
  · rintro a b htouch ⟨⟨hx1, -⟩, -⟩
    linarith

/-- C6 witness: a concrete positive-size pair for the equivalence and a
concrete touching pair for the exclusion. -/
theorem rect_intersects_overlap_witness :
    (0 < (4 : ℚ)) ∧
    ((Rect.intersects (⟨⟨0, 0⟩, ⟨4, 4⟩⟩ : Rect ℚ) ⟨⟨2, 2⟩, ⟨4, 4⟩⟩) ↔
      rectOpenOverlap (⟨⟨0, 0⟩, ⟨4, 4⟩⟩ : Rect ℚ) ⟨⟨2, 2⟩, ⟨4, 4⟩⟩) ∧
    ¬ Rect.intersects (⟨⟨0, 0⟩, ⟨4, 4⟩⟩ : Rect ℚ) ⟨⟨4, 0⟩, ⟨4, 4⟩⟩ :=
  ⟨by norm_num,
   rect_intersects_overlap.1 ⟨⟨0, 0⟩, ⟨4, 4⟩⟩ ⟨⟨2, 2⟩, ⟨4, 4⟩⟩
     (by norm_num) (by norm_num) (by norm_num) (by norm_num),
   rect_intersects_overlap.2 ⟨⟨0, 0⟩, ⟨4, 4⟩⟩ ⟨⟨4, 0⟩, ⟨4, 4⟩⟩ (by norm_num)⟩

/-- C7: `clampf(x, min, max)` returns `min` whenever `min > max`, for every
`x`; and whenever `min ≤ max` it clamps normally — `max` if `x > max`, `min`
if `x < min`, and `x` itself otherwise. -/
theorem clampf_spec (x lo hi : ℚ) :
    (hi < lo → clampf x lo hi = lo) ∧
    (lo ≤ hi →
      (hi < x → clampf x lo hi = hi) ∧
      (x < lo → clampf x lo hi = lo) ∧
      (lo ≤ x → x ≤ hi → clampf x lo hi = x)) := by
  refine ⟨fun h => clampf_of_empty x lo hi h, fun h => ⟨?_, ?_, ?_⟩⟩ <;>
    simp only [clampf] <;> intros <;> split_ifs <;> linarith

/-- C7 witness: the degenerate case and all three normal branches at concrete
inputs. -/
theorem clampf_spec_witness :
    clampf (5 : ℚ) 3 1 = 3 ∧ clampf (7 : ℚ) 0 5 = 5 ∧
    clampf (-2 : ℚ) 0 5 = 0 ∧ clampf (3 : ℚ) 0 5 = 3 :=
  ⟨(clampf_spec 5 3 1).1 (by norm_num),
   ((clampf_spec 7 0 5).2 (by norm_num)).1 (by norm_num),
   ((clampf_spec (-2) 0 5).2 (by norm_num)).2.1 (by norm_num),
   ((clampf_spec 3 0 5).2 (by norm_num)).2.2 (by norm_num) (by norm_num)⟩

/-- C8: `eucMod(a, base)` lies in `[0, base)` for every integer `a` and
positive `base`; `eucMod(-1, 4) = 3` and `eucMod(5, 4) = 1`. -/
theorem eucMod_range :
    (∀ a base : ℤ, 0 < base → 0 ≤ eucMod a base ∧ eucMod a base < base) ∧
    eucMod (-1) 4 = 3 ∧ eucMod 5 4 = 1 := by
  refine ⟨fun a base hb => ?_, by decide, by decide⟩
  have hub : Int.tmod a base < base := Int.tmod_lt_of_pos a hb
  have hlb : -base < Int.tmod a base := neg_lt_tmod a base hb
  simp only [eucMod]
  split_ifs with h <;> omega

/-- C8 witness: the range bound applied at `a = -7`, `base = 3`. -/
theorem eucMod_range_witness :
    (0 : ℤ) < 3 ∧ 0 ≤ eucMod (-7) 3 ∧ eucMod (-7) 3 < 3 :=
  ⟨by decide, eucMod_range.1 (-7) 3 (by decide)⟩

/-- C9 counterexample: at `p = [1, 0]` and `x = -1/2` the length precondition
`|p| ≥ ceil(x) + 1` holds, yet `interpf` (which truncates `x` toward zero, as
the C cast does) returns `3/2` while the claimed floor-based interpolation
formula yields `1/2`. -/
theorem interpf_floor_cex :
    ((⌈(-1/2 : ℚ)⌉ + 1 : ℤ) ≤ ([1, 0] : List ℚ).length) ∧
    interpf ([1, 0] : List ℚ) (-1/2) = 3/2 ∧
    interpSpec ([1, 0] : List ℚ) (-1/2) = 1/2 ∧
    interpf ([1, 0] : List ℚ) (-1/2) ≠ interpSpec ([1, 0] : List ℚ) (-1/2) := by
  have hc : ⌈(-1/2 : ℚ)⌉ = 0 := by norm_num
  have hf : ⌊(-1/2 : ℚ)⌋ = -1 := by norm_num
  have ht : truncToInt (-1/2 : ℚ) = 0 := by
    rw [truncToInt, if_pos (by norm_num : (-1/2 : ℚ) < 0), hc]
  refine ⟨?_, ?_, ?_, ?_⟩
  · rw [hc]; norm_num
  · simp only [interpf, getI, crossf]
    rw [ht]
    norm_num [List.getD]
  · simp only [interpSpec, getI]
    rw [hf]
    norm_num [List.getD]
  · simp only [interpf, interpSpec, getI, crossf]
    rw [ht, hf]
    norm_num [List.getD]

/-- C9 (amended): for every `0 ≤ x` with `|p| ≥ ceil(x) + 1`, `interpf p x`
equals the linear interpolation between `p[⌊x⌋]` and `p[⌊x⌋+1]` with fraction
`x - ⌊x⌋`. -/
theorem interpf_eq_interpSpec (p : List ℚ) (x : ℚ) (hx : 0 ≤ x)
    (_hlen : (⌈x⌉ + 1 : ℤ) ≤ p.length) :
    interpf p x = interpSpec p x := by
  unfold interpf interpSpec truncToInt crossf
  rw [if_neg (not_lt.mpr hx)]

/-- C9 witness: at `p = [1, 3]`, `x = 1/2` the hypotheses hold, the two
formulas agree and evaluate to `2`. -/
theorem interpf_eq_interpSpec_witness :
    (0 : ℚ) ≤ 1/2 ∧ ((⌈(1/2 : ℚ)⌉ + 1 : ℤ) ≤ ([1, 3] : List ℚ).length) ∧
    interpf ([1, 3] : List ℚ) (1/2) = interpSpec ([1, 3] : List ℚ) (1/2) ∧
    interpf ([1, 3] : List ℚ) (1/2) = 2 := by
  have hcc : ⌈(1/2 : ℚ)⌉ = 1 := by
    rw [Int.ceil_eq_iff]
    norm_num
  have hff : ⌊(1/2 : ℚ)⌋ = 0 := by norm_num
  have hlen : ((⌈(1/2 : ℚ)⌉ + 1 : ℤ) ≤ ([1, 3] : List ℚ).length) := by
    rw [hcc]; norm_num
  have ht : truncToInt (1/2 : ℚ) = 0 := by
    rw [truncToInt, if_neg (by norm_num : ¬ (1/2 : ℚ) < 0), hff]
  refine ⟨by norm_num, hlen,
    interpf_eq_interpSpec [1, 3] (1/2) (by norm_num) hlen, ?_⟩
  simp only [interpf, getI, crossf]
  rw [ht]
  norm_num [List.getD]

/-- C10: `clampf` is idempotent for all arguments, including the degenerate
`min > max` case. -/
theorem clampf_idempotent (x lo hi : ℚ) :
    clampf (clampf x lo hi) lo hi = clampf x lo hi := by
  simp only [clampf]
  split_ifs <;> linarith

/-- C4: `Rect::clamp` never changes the size; when the rectangle fits the
bound on both axes the result's position lies in
`[bound.pos, bound.pos + bound.size - size]` per axis and every point of the
result (per the half-open `contains`) lies in the bound; on an axis where the
rectangle is larger than the bound the resulting position is `bound.pos`. -/
theorem rect_clamp_spec (r b : Rect ℚ) :
    (r.clamp b).size = r.size ∧
    (r.size.x ≤ b.size.x → r.size.y ≤ b.size.y →
      (∀ v, (r.clamp b).contains v → b.contains v) ∧
      (b.pos.x ≤ (r.clamp b).pos.x ∧
        (r.clamp b).pos.x ≤ b.pos.x + b.size.x - r.size.x) ∧
      (b.pos.y ≤ (r.clamp b).pos.y ∧
        (r.clamp b).pos.y ≤ b.pos.y + b.size.y - r.size.y)) ∧
    (b.size.x < r.size.x → (r.clamp b).pos.x = b.pos.x) ∧
    (b.size.y < r.size.y → (r.clamp b).pos.y = b.pos.y) := by
  refine ⟨rfl, fun hx hy => ?_, fun hx => ?_, fun hy => ?_⟩
  · have hbx := clampf_mem r.pos.x b.pos.x (b.pos.x + b.size.x - r.size.x)
      (by linarith)
    have hby := clampf_mem r.pos.y b.pos.y (b.pos.y + b.size.y - r.size.y)
      (by linarith)
    simp only [Rect.clamp, Rect.contains] at *
    exact ⟨fun v hv => ⟨⟨by linarith [hv.1.1], by linarith [hv.1.2]⟩,
      ⟨by linarith [hv.2.1], by linarith [hv.2.2]⟩⟩, hbx, hby⟩
  · exact clampf_of_empty _ _ _ (by linarith)
  · exact clampf_of_empty _ _ _ (by linarith)

/-- C4 witness: the rectangle at `(-5, 20)` of size `(2, 3)` clamped into the
box at `(0, 0)` of size `(10, 10)` keeps its size, and a sample point of the
clamped rectangle lies in the box. -/
theorem rect_clamp_spec_witness :
    (2 : ℚ) ≤ 10 ∧ (3 : ℚ) ≤ 10 ∧
    (Rect.clamp (⟨⟨-5, 20⟩, ⟨2, 3⟩⟩ : Rect ℚ) ⟨⟨0, 0⟩, ⟨10, 10⟩⟩).size =
      (⟨2, 3⟩ : Vec ℚ) ∧
    (Rect.mk ⟨0, 0⟩ ⟨10, 10⟩ : Rect ℚ).contains ⟨1, 8⟩ :=
  ⟨by norm_num, by norm_num,
   (rect_clamp_spec ⟨⟨-5, 20⟩, ⟨2, 3⟩⟩ ⟨⟨0, 0⟩, ⟨10, 10⟩⟩).1,
   ((rect_clamp_spec ⟨⟨-5, 20⟩, ⟨2, 3⟩⟩ ⟨⟨0, 0⟩, ⟨10, 10⟩⟩).2.1
       (by norm_num) (by norm_num)).1 ⟨1, 8⟩
     (by norm_num [Rect.clamp, Rect.contains, clampf])⟩

/-- C1: whenever the dirty flag is set, `SVGKnob::step` rebuilds the transform
accumulator as exactly `identity; scale(box.size / sw->box.size);
translate(center); rotate(angle); translate(-center)` with `center` the center
of the child's natural box and `angle = rescalef(value, minValue, maxValue,
minAngle, maxAngle)`; and over `ℝ`, `rescalef(5, 0, 10, 0, π) = π/2`. -/
theorem svgknob_step_rebuild :
    (∀ k : SVGKnob ℚ, k.dirty = true →
      (k.step).tw.ops =
        [TOp.scale (k.box.size.divVec k.swBox.size),
         TOp.translate k.swBox.getCenter,
         TOp.rotate (rescalef k.value k.minValue k.maxValue k.minAngle
           k.maxAngle),
         TOp.translate k.swBox.getCenter.neg]) ∧
    rescalef (5 : ℝ) 0 10 0 Real.pi = Real.pi / 2 := by
  constructor
  · intro k hd
    simp [SVGKnob.step, hd, FramebufferWidget.step, TransformWidget.identity,
      TransformWidget.scale, TransformWidget.rotate, TransformWidget.translate]
  · rw [rescalef]
    ring

/-- C1 witness: a concrete dirty knob (value 5 in `[0, 10]`, angles `[0, 1]`,
child box `2×4` at the origin, display box `6×8`) steps to the expected
four-operation list with angle `1/2`. -/
theorem svgknob_step_rebuild_witness :
    (SVGKnob.step (⟨5, 0, 10, 0, 1, true, ⟨[]⟩, ⟨⟨0, 0⟩, ⟨2, 4⟩⟩,
        ⟨⟨0, 0⟩, ⟨6, 8⟩⟩⟩ : SVGKnob ℚ)).tw.ops =
      [TOp.scale ⟨3, 2⟩, TOp.translate ⟨1, 2⟩, TOp.rotate (1/2),
       TOp.translate ⟨-1, -2⟩] := by
  have h := svgknob_step_rebuild.1 ⟨5, 0, 10, 0, 1, true, ⟨[]⟩,
    ⟨⟨0, 0⟩, ⟨2, 4⟩⟩, ⟨⟨0, 0⟩, ⟨6, 8⟩⟩⟩ rfl
  rw [h]
  norm_num [Vec.divVec, Rect.getCenter, Vec.plus, Vec.mult, Vec.neg, rescalef]

/-- C2: for any interpretation of cosine/sine and any dirty knob, the
transform built by `step` maps the child's natural center to the
componentwise-scaled center — the same image it has with rotation angle `0` —
so the rotation leaves the child's visual center fixed regardless of the
display-box scale. -/
theorem svgknob_rotation_fixes_center (k : SVGKnob ℚ) (trig : ℚ → ℚ × ℚ)
    (hd : k.dirty = true) :
    applyOps trig (k.step).tw.ops k.swBox.getCenter =
      ⟨(k.box.size.divVec k.swBox.size).x * k.swBox.getCenter.x,
       (k.box.size.divVec k.swBox.size).y * k.swBox.getCenter.y⟩ ∧
    applyOps trig (k.step).tw.ops k.swBox.getCenter =
      applyOps trig
        [TOp.scale (k.box.size.divVec k.swBox.size),
         TOp.translate k.swBox.getCenter,
         TOp.rotate 0,
         TOp.translate k.swBox.getCenter.neg] k.swBox.getCenter := by
  have hops : (k.step).tw.ops =
      [TOp.scale (k.box.size.divVec k.swBox.size),
       TOp.translate k.swBox.getCenter,
       TOp.rotate (rescalef k.value k.minValue k.maxValue k.minAngle
         k.maxAngle),
       TOp.translate k.swBox.getCenter.neg] := by
    simp [SVGKnob.step, hd, FramebufferWidget.step, TransformWidget.identity,
      TransformWidget.scale, TransformWidget.rotate, TransformWidget.translate]
  rw [hops]
  simp only [applyOps, applyOp, Vec.neg]
  constructor
  · rw [Vec.mk.injEq]
    constructor <;> ring
  · rw [Vec.mk.injEq]
    constructor <;> ring

/-- C2 witness: the same concrete knob as for C1, with the identity as the
trigonometric interpretation: the center `(1, 2)` of the child box maps to
`(3, 4)`, the scaled center. -/
theorem svgknob_rotation_fixes_center_witness :
    applyOps (fun a => (a, a))
        (SVGKnob.step (⟨5, 0, 10, 0, 1, true, ⟨[]⟩, ⟨⟨0, 0⟩, ⟨2, 4⟩⟩,
          ⟨⟨0, 0⟩, ⟨6, 8⟩⟩⟩ : SVGKnob ℚ)).tw.ops
        (Rect.getCenter (⟨⟨0, 0⟩, ⟨2, 4⟩⟩ : Rect ℚ)) =
      ⟨3, 4⟩ := by
  have h := (svgknob_rotation_fixes_center ⟨5, 0, 10, 0, 1, true, ⟨[]⟩,
    ⟨⟨0, 0⟩, ⟨2, 4⟩⟩, ⟨⟨0, 0⟩, ⟨6, 8⟩⟩⟩ (fun a => (a, a)) rfl).1
  rw [h]
  norm_num [Vec.divVec, Rect.getCenter, Vec.plus, Vec.mult]

/-- C3: every delivery of the value-change notification `SVGKnob::onChange`
leaves the dirty flag set, so the change is observed by the next `step`. -/
theorem svgknob_onChange_sets_dirty (k : SVGKnob ℚ) :
    (k.onChange).dirty = true := rfl

end Rack
